import Mathlib

/-!
# Verification of the fake-history commit-event scheduler

Shallow embedding of the scheduling/gating logic of `src/vary_history.py`
(class `GitHistoryFaker`: `run_backfill` and `is_time_to_work`; `src/main.py`
carries a byte-for-byte identical `is_time_to_work`).

Modelling conventions:
* Python `datetime` dates are the `Date` structure (year/month/day as `Nat`);
  `datetime.fromisoformat("YYYY-MM-DD")` yields midnight, so comparison of the
  loop variable against `end_dt` is plain lexicographic date comparison
  (`dateLE`), and `timedelta(days=1)` is `nextDay`.
* The process-wide random generator is abstracted as a family of draw
  functions (`Draws`), one per call site, indexed by the day (and, for the
  in-cluster draws, by the loop offset `i`).  `random.random()` values are
  rationals (the claims' properties are order properties of the drawn value,
  exactly representable over `ℚ`); `random.randint(a, b)` is a function
  applied to the bounds `a`, `b` that the code passes at that call site, so
  the theorems can state which inclusive range each draw is requested from.
  Uniformity of a draw over the requested range is the random library's
  contract and appears here as range hypotheses on the draw functions.
* Each Python `print(s)` contributes the string `s` as one element of the
  dry-run output list (a `\n` inside `s` stays inside the element, exactly as
  it is inside the printed argument).
-/

/-- A calendar date, as in Python `datetime.date` (year, month, day). -/
structure Date where
  y : Nat
  m : Nat
  d : Nat
deriving DecidableEq, Repr

/-- Gregorian leap-year test (calendar rule used by `datetime`). -/
def isLeap (y : Nat) : Bool :=
  y % 4 == 0 && (y % 100 != 0 || y % 400 == 0)

/-- Number of days in a month, as in `datetime` (Gregorian calendar). -/
def daysInMonth (y m : Nat) : Nat :=
  if m = 2 then (if isLeap y then 29 else 28)
  else if m = 4 ∨ m = 6 ∨ m = 9 ∨ m = 11 then 30
  else 31

/-- `current_dt + timedelta(days=1)` at day granularity. -/
def nextDay (dt : Date) : Date :=
  if dt.d < daysInMonth dt.y dt.m then ⟨dt.y, dt.m, dt.d + 1⟩
  else if dt.m < 12 then ⟨dt.y, dt.m + 1, 1⟩
  else ⟨dt.y + 1, 1, 1⟩

/-- `datetime` comparison `a <= b` for midnight datetimes: lexicographic on
(year, month, day). -/
def dateLE (a b : Date) : Bool :=
  decide (a.y < b.y) ||
    (a.y == b.y &&
      (decide (a.m < b.m) || (a.m == b.m && decide (a.d ≤ b.d))))

/-- The `while current_dt <= end_dt: ... current_dt += timedelta(days=1)` loop
of `run_backfill`, collecting the visited days.  `fuel` is a recursion bound;
the loop stops by itself at the first day past `ed`, so any fuel at least the
number of visited days yields the loop's exact day sequence. -/
def dayLoop (ed : Date) : Date → Nat → List Date
  | _, 0 => []
  | cur, fuel + 1 =>
      if dateLE cur ed then cur :: dayLoop ed (nextDay cur) fuel else []

/-- The inclusive day sequence the backfill loop visits, from `sd` while
`current <= ed`.  The fuel `(ed.y + 1) * 366` is at least one day per calendar
day of years `0 .. ed.y`, hence at least the visited-day count. -/
def backfillDates (sd ed : Date) : List Date :=
  dayLoop ed sd ((ed.y + 1) * 366)

/-- `backfill_settings` keys read by `run_backfill` (each `Option` field is a
JSON key that may be absent; `none` makes the code's `.get` default apply). -/
structure RawBackfillCfg where
  commit_frequency_per_day : Option ℚ
deriving Repr

/-- `commit_clustering` keys read by `run_backfill`. -/
structure RawClusterCfg where
  enabled : Option Bool
  min_commits_per_cluster : Option Nat
  max_commits_per_cluster : Option Nat
deriving Repr

/-- `run_settings.working_hours` keys read by `is_time_to_work`. -/
structure RawWorkingHoursCfg where
  enabled : Option Bool
  work_on_saturday : Option Bool
  work_on_sunday : Option Bool
  start_hour : Option Nat
  end_hour : Option Nat
deriving Repr

/-- `run_settings` keys read by `is_time_to_work`. -/
structure RawRunCfg where
  working_hours : Option RawWorkingHoursCfg
  skip_run_chance : Option ℚ
deriving Repr

/-- The random draws one backfill run consumes, one field per call site of
`run_backfill`.  `randint(a, b)` sites take the bounds the code passes. -/
structure Draws where
  /-- `random.random()` drawn for day `dt` (the daily activity gate). -/
  act : Date → ℚ
  /-- `random.randint(a, b)` drawn for day `dt` for the cluster count. -/
  cnt : Date → Nat → Nat → Nat
  /-- `random.randint(a, b)` drawn for day `dt` for `base_hour`. -/
  anchorH : Date → Nat → Nat → Nat
  /-- `random.randint(a, b)` drawn for day `dt` for `base_minute`. -/
  anchorM : Date → Nat → Nat → Nat
  /-- `random.randint(a, b)` drawn for day `dt` at loop offset `i` (jitter). -/
  jit : Date → Nat → Nat → Nat → Nat
  /-- index of `random.choice(commit_messages)` for day `dt` at offset `i`. -/
  choice : Date → Nat → Nat

/-- One scheduled commit event: the day, the derived hour/minute of
`commit_dt`, and the chosen commit message. -/
structure Event where
  day : Date
  hour : Nat
  minute : Nat
  msg : String
deriving DecidableEq, Repr

/-- `random.random() < backfill_cfg.get("commit_frequency_per_day", 0.75)`:
the daily activity gate, `u` being the drawn value. -/
def dayActive (bcfg : RawBackfillCfg) (u : ℚ) : Bool :=
  decide (u < bcfg.commit_frequency_per_day.getD (3 / 4))

/-- Cluster count selection of `run_backfill`: `num_commits = 1`, overwritten
by `randint(min_c, max_c)` when clustering is enabled, with the code's `.get`
defaults for the three keys.  `cnt` is that day's `randint` draw function. -/
def planClusterCount (ccfg : RawClusterCfg) (cnt : Nat → Nat → Nat) : Nat :=
  if ccfg.enabled.getD false then
    cnt (ccfg.min_commits_per_cluster.getD 1) (ccfg.max_commits_per_cluster.getD 4)
  else 1

/-- `base_hour = random.randint(10, 16)` for day `dt`. -/
def base_hour (dr : Draws) (dt : Date) : Nat :=
  dr.anchorH dt 10 16

/-- `base_minute = random.randint(0, 59)` for day `dt`. -/
def base_minute (dr : Draws) (dt : Date) : Nat :=
  dr.anchorM dt 0 59

/-- The event the loop body builds at offset `i` (before the `> 23` test):
`commit_minute = bm + i * jitter_i`, `commit_hour = bh + commit_minute // 60`,
`commit_minute %= 60`, message from `random.choice`. -/
def mkEvent (dt : Date) (bh bm : Nat) (jit ch : Nat → Nat)
    (msgs : List String) (i : Nat) : Event :=
  ⟨dt, bh + (bm + i * jit i) / 60, (bm + i * jit i) % 60, msgs.getD (ch i) ""⟩

/-- The `for i in range(num_commits)` loop of `run_backfill`, from offset `i`
with `rem` iterations left: compute the offset's hour/minute and `continue`
(emit nothing) when the derived hour exceeds 23. -/
def seqFrom (dt : Date) (bh bm : Nat) (jit ch : Nat → Nat)
    (msgs : List String) : Nat → Nat → List Event
  | _, 0 => []
  | i, rem + 1 =>
      let rest := seqFrom dt bh bm jit ch msgs (i + 1) rem
      if bh + (bm + i * jit i) / 60 > 23 then rest
      else mkEvent dt bh bm jit ch msgs i :: rest

/-- The Timestamp Sequencer: the whole `for i in range(n)` loop over one
cluster anchored at `bh:bm`, with that cluster's jitter and message draws. -/
def sequencerEvents (dt : Date) (bh bm n : Nat) (jit ch : Nat → Nat)
    (msgs : List String) : List Event :=
  seqFrom dt bh bm jit ch msgs 0 n

/-- All events of one active day: plan the count, draw the anchors, run the
sequencer with that day's jitter (`randint(5, 20)`) and choice draws. -/
def clusterForDay (ccfg : RawClusterCfg) (msgs : List String) (dr : Draws)
    (dt : Date) : List Event :=
  sequencerEvents dt (base_hour dr dt) (base_minute dr dt)
    (planClusterCount ccfg (dr.cnt dt))
    (fun i => dr.jit dt i 5 20) (dr.choice dt) msgs

/-- Events of a day after the activity gate (an inactive day yields none). -/
def dayEvents (bcfg : RawBackfillCfg) (ccfg : RawClusterCfg)
    (msgs : List String) (dr : Draws) (dt : Date) : List Event :=
  if dayActive bcfg (dr.act dt) then clusterForDay ccfg msgs dr dt else []

/-- All surviving events a backfill over `[sd, ed]` schedules, in emission
order. -/
def backfillEvents (bcfg : RawBackfillCfg) (ccfg : RawClusterCfg)
    (msgs : List String) (dr : Draws) (sd ed : Date) : List Event :=
  (backfillDates sd ed).flatMap (dayEvents bcfg ccfg msgs dr)

/-- The single-quote character (code point 39) as a string. -/
def apos : String :=
  (Char.ofNat 39).toString

/-- Two-digit zero-padded decimal, as in `datetime`'s `%02d` fields. -/
def pad2 (n : Nat) : String :=
  if n < 10 then "0" ++ toString n else toString n

/-- Four-digit zero-padded decimal, as in `datetime`'s `%04d` year. -/
def pad4 (n : Nat) : String :=
  if n < 10 then "000" ++ toString n
  else if n < 100 then "00" ++ toString n
  else if n < 1000 then "0" ++ toString n
  else toString n

/-- `str(date)` / the date part of `isoformat()`: `YYYY-MM-DD`. -/
def dateISO (dt : Date) : String :=
  pad4 dt.y ++ "-" ++ pad2 dt.m ++ "-" ++ pad2 dt.d

/-- `commit_dt.isoformat()` where `commit_dt = current_dt.replace(hour=h,
minute=m)` and `current_dt` is a midnight date: seconds and microseconds are
zero, so the format is `YYYY-MM-DDTHH:MM:SS` with no timezone suffix. -/
def isoTS (dt : Date) (h m : Nat) : String :=
  dateISO dt ++ "T" ++ pad2 h ++ ":" ++ pad2 m ++ ":00"

/-- The lines `run_backfill` prints inside the day loop, as structured data
(rendered to exact text by `renderLine`). -/
inductive OutLine where
  /-- `  Creating cluster of {n} commit(s) for {date}` -/
  | header (n : Nat) (dt : Date)
  /-- `    [DRY RUN] Would create commit: '{msg}' at {isoformat}` -/
  | wouldCreate (e : Event)
deriving DecidableEq, Repr

/-- Whether a loop line is a "Would create commit" line. -/
def OutLine.isWouldCreate : OutLine → Bool
  | .wouldCreate _ => true
  | .header _ _ => false

/-- The exact text of a day-loop line. -/
def renderLine : OutLine → String
  | .header n dt =>
      "  Creating cluster of " ++ toString n ++ " commit(s) for " ++ dateISO dt
  | .wouldCreate e =>
      "    [DRY RUN] Would create commit: " ++ apos ++ e.msg ++ apos ++ " at "
        ++ isoTS e.day e.hour e.minute

/-- Day-loop output of one day in dry-run mode: nothing when inactive, else
the cluster header line followed by one would-create line per surviving
event. -/
def dayOutLines (bcfg : RawBackfillCfg) (ccfg : RawClusterCfg)
    (msgs : List String) (dr : Draws) (dt : Date) : List OutLine :=
  if dayActive bcfg (dr.act dt) then
    .header (planClusterCount ccfg (dr.cnt dt)) dt
      :: (clusterForDay ccfg msgs dr dt).map .wouldCreate
  else []

/-- `print("--- Backfill Mode Activated (Dry Run: True) ---")` (dry run). -/
def bannerLine : String :=
  "--- Backfill Mode Activated (Dry Run: True) ---"

/-- `print("Starting commit generation loop with clustering...")`. -/
def startLine : String :=
  "Starting commit generation loop with clustering..."

/-- The terminal dry-run print (its argument starts with a newline). -/
def summaryLine : String :=
  "\n--- Dry Run Complete. No history was changed. ---"

/-- Everything `run_backfill(start, end, dry_run=True)` prints, one element
per `print` call, in order. -/
def runBackfillDryLines (bcfg : RawBackfillCfg) (ccfg : RawClusterCfg)
    (msgs : List String) (dr : Draws) (sd ed : Date) : List String :=
  bannerLine :: startLine ::
    ((backfillDates sd ed).flatMap
        (fun dt => dayOutLines bcfg ccfg msgs dr dt)).map renderLine
    ++ [summaryLine]

/-- An empty `working_hours` JSON object (`run_cfg.get('working_hours', {})`
when the key is absent). -/
def emptyWH : RawWorkingHoursCfg :=
  ⟨none, none, none, none, none⟩

/-- `GitHistoryFaker.is_time_to_work`, over "now" (`weekday` with Monday = 0
through Sunday = 6, and the current `hour`) and the drawn value `u` of the
`random.random()` call guarding `skip_run_chance`. -/
def is_time_to_work (run_cfg : RawRunCfg) (weekday hour : Nat) (u : ℚ) : Bool :=
  let wh := run_cfg.working_hours.getD emptyWH
  if !(wh.enabled.getD false) then true
  else if (weekday == 5 && !(wh.work_on_saturday.getD false))
      || (weekday == 6 && !(wh.work_on_sunday.getD false)) then false
  else if !(decide (wh.start_hour.getD 9 ≤ hour ∧ hour < wh.end_hour.getD 17)) then
    false
  else if u < run_cfg.skip_run_chance.getD 0 then false
  else true

/-- Modelled from the spec: the Timestamp Sequencer as §4.4 words it, with a
*running minute total* that accumulates each event's fresh jitter draw
(`total 0 = anchor minute`, `total (i+1) = total i + jitter (i+1)`).  Kept
only to compare against `sequencerEvents`, the sequencer the code defines. -/
def specRunningTotal (bm : Nat) (jit : Nat → Nat) : Nat → Nat
  | 0 => bm
  | i + 1 => specRunningTotal bm jit i + jit (i + 1)

/-- Modelled from the spec: the sequencer built on `specRunningTotal`
(hour `bh + total // 60`, minute `total % 60`, same overflow skip). -/
def specSequencerEvents (dt : Date) (bh bm n : Nat) (jit ch : Nat → Nat)
    (msgs : List String) : List Event :=
  (List.range n).filterMap (fun i =>
    let t := specRunningTotal bm jit i
    if bh + t / 60 > 23 then none
    else some ⟨dt, bh + t / 60, t % 60, msgs.getD (ch i) ""⟩)

/-- Minutes since the day's midnight of an event's timestamp (the order on
same-day timestamps). -/
def timeVal (e : Event) : Nat :=
  e.hour * 60 + e.minute

/-- Membership in the sequencer loop's output: exactly the offsets in
`[i, i + rem)` whose derived hour stays at or below 23 contribute, each as
`mkEvent` at its own offset. -/
theorem mem_seqFrom (dt : Date) (bh bm : Nat) (jit ch : Nat → Nat)
    (msgs : List String) :
    ∀ (rem i : Nat) (e : Event),
      (e ∈ seqFrom dt bh bm jit ch msgs i rem ↔
        ∃ k, i ≤ k ∧ k < i + rem ∧ bh + (bm + k * jit k) / 60 ≤ 23 ∧
          e = mkEvent dt bh bm jit ch msgs k)
  | 0, i, e => by
      simp only [seqFrom, List.not_mem_nil, false_iff]
      rintro ⟨k, h1, h2, -, -⟩
      omega
  | rem + 1, i, e => by
      simp only [seqFrom]
      by_cases h : bh + (bm + i * jit i) / 60 > 23
      · rw [if_pos h, mem_seqFrom dt bh bm jit ch msgs rem (i + 1) e]
        constructor
        · rintro ⟨k, h1, h2, h3, h4⟩
          exact ⟨k, by omega, by omega, h3, h4⟩
        · rintro ⟨k, h1, h2, h3, h4⟩
          rcases Nat.eq_or_lt_of_le h1 with rfl | hik
          · exact absurd h3 (Nat.not_le.mpr h)
          · exact ⟨k, hik, by omega, h3, h4⟩
      · rw [if_neg h, List.mem_cons,
          mem_seqFrom dt bh bm jit ch msgs rem (i + 1) e]
        constructor
        · rintro (rfl | ⟨k, h1, h2, h3, h4⟩)
          · exact ⟨i, Nat.le_refl i, by omega, Nat.le_of_not_lt h, rfl⟩
          · exact ⟨k, by omega, by omega, h3, h4⟩
        · rintro ⟨k, h1, h2, h3, h4⟩
          rcases Nat.eq_or_lt_of_le h1 with rfl | hik
          · exact Or.inl h4
          · exact Or.inr ⟨k, hik, by omega, h3, h4⟩

/-- C4 (confirmed): an offset whose derived hour exceeds 23 is skipped (no
event with hour ≥ 24 is ever in the sequencer's output), and the loop does
not terminate early: every offset `i < n` whose own derived hour is at most
23 is emitted, regardless of what earlier offsets did. -/
theorem overflow_skipped_loop_continues (dt : Date) (bh bm n : Nat)
    (jit ch : Nat → Nat) (msgs : List String) :
    (∀ e ∈ sequencerEvents dt bh bm n jit ch msgs, e.hour ≤ 23) ∧
    (∀ i, i < n → bh + (bm + i * jit i) / 60 ≤ 23 →
      mkEvent dt bh bm jit ch msgs i ∈ sequencerEvents dt bh bm n jit ch msgs) := by
  constructor
  · intro e he
    rw [sequencerEvents, mem_seqFrom] at he
    obtain ⟨k, -, -, hk, rfl⟩ := he
    simpa [mkEvent] using hk
  · intro i hi hh
    rw [sequencerEvents, mem_seqFrom]
    exact ⟨i, Nat.zero_le i, by omega, hh, rfl⟩

/-- C4 witness: in a concrete cluster (anchor 16:59, 24 offsets, jitter 20 at
offset 22 and 5 elsewhere) offset 22 overflows, yet offset 23 is emitted. -/
theorem overflow_skipped_loop_continues_witness :
    mkEvent ⟨2023, 1, 2⟩ 16 59 (fun i => if i = 22 then 20 else 5) (fun _ => 0)
        ["m"] 23 ∈
      sequencerEvents ⟨2023, 1, 2⟩ 16 59 24 (fun i => if i = 22 then 20 else 5)
        (fun _ => 0) ["m"] :=
  (overflow_skipped_loop_continues ⟨2023, 1, 2⟩ 16 59 24
      (fun i => if i = 22 then 20 else 5) (fun _ => 0) ["m"]).2 23
    (by decide) (by decide)

/-- C5 counterexample: with anchor 16:59 and 24 offsets, jitter 20 at offset
22 and 5 elsewhere, offset 22's derived hour is 24 (dropped), yet the run
with all 24 offsets emits 23 events — one more than the 22 offsets before the
overflow — so the first overflow does not truncate the cluster. -/
theorem overflow_truncation_ctrex :
    23 < 16 + (59 + 22 * 20) / 60 ∧
    (sequencerEvents ⟨2023, 1, 2⟩ 16 59 22 (fun i => if i = 22 then 20 else 5)
        (fun _ => 0) ["m"]).length = 22 ∧
    (sequencerEvents ⟨2023, 1, 2⟩ 16 59 24 (fun i => if i = 22 then 20 else 5)
        (fun _ => 0) ["m"]).length = 23 ∧
    (sequencerEvents ⟨2023, 1, 2⟩ 16 59 24 (fun i => if i = 22 then 20 else 5)
        (fun _ => 0) ["m"]).getLast? = some ⟨⟨2023, 1, 2⟩, 18, 54, "m"⟩ := by
  decide

/-- C5 (corrected): an overflowed offset does not cut the cluster off — for
any offset `k` after an overflowed offset `i`, `k`'s event is produced if and
only if `k`'s own derived hour is at most 23 (a smaller jitter draw at `k`
can land the derived hour back inside the day). -/
theorem overflow_does_not_truncate (dt : Date) (bh bm n : Nat)
    (jit ch : Nat → Nat) (msgs : List String) (i k : Nat)
    (hik : i < k) (hkn : k < n)
    (hover : 23 < bh + (bm + i * jit i) / 60) :
    mkEvent dt bh bm jit ch msgs k ∈ sequencerEvents dt bh bm n jit ch msgs ↔
      bh + (bm + k * jit k) / 60 ≤ 23 := by
  rw [sequencerEvents, mem_seqFrom]
  constructor
  · rintro ⟨j, -, -, hj, heq⟩
    have h2 : bh + (bm + k * jit k) / 60 = bh + (bm + j * jit j) / 60 :=
      congrArg Event.hour heq
    rw [h2]
    exact hj
  · intro h
    exact ⟨k, Nat.zero_le k, by omega, h, rfl⟩

/-- C5 witness: the concrete overflow scenario — offset 22 overflows, offset
23's derived hour is 18 ≤ 23, and its event is in the output. -/
theorem overflow_does_not_truncate_witness :
    mkEvent ⟨2023, 1, 2⟩ 16 59 (fun i => if i = 22 then 20 else 5) (fun _ => 0)
        ["m"] 23 ∈
      sequencerEvents ⟨2023, 1, 2⟩ 16 59 24 (fun i => if i = 22 then 20 else 5)
        (fun _ => 0) ["m"] :=
  (overflow_does_not_truncate ⟨2023, 1, 2⟩ 16 59 24
      (fun i => if i = 22 then 20 else 5) (fun _ => 0) ["m"] 22 23
      (by decide) (by decide) (by decide)).mpr (by decide)

/-- A concrete draw family for witnesses: `random()` always 0, every
`randint(a, b)` draw returns `a`, every choice index 0. -/
def constDraws : Draws :=
  ⟨fun _ => 0, fun _ a _ => a, fun _ a _ => a, fun _ a _ => a,
    fun _ _ a _ => a, fun _ _ => 0⟩

/-- C1 counterexample: anchor 10:00, three offsets, jitter draws 20 (offset 1)
and 5 (offset 2), all inside `[5, 20]`.  All three events survive, but the
third (10:10) is strictly earlier than the second (10:20): consecutive
surviving events are not strictly increasing. -/
theorem cluster_not_strictly_increasing_ctrex :
    sequencerEvents ⟨2023, 1, 1⟩ 10 0 3 (fun i => if i = 1 then 20 else 5)
        (fun _ => 0) ["m"] =
      [⟨⟨2023, 1, 1⟩, 10, 0, "m"⟩, ⟨⟨2023, 1, 1⟩, 10, 20, "m"⟩,
        ⟨⟨2023, 1, 1⟩, 10, 10, "m"⟩] ∧
    ¬ timeVal ⟨⟨2023, 1, 1⟩, 10, 20, "m"⟩ < timeVal ⟨⟨2023, 1, 1⟩, 10, 10, "m"⟩ := by
  decide

/-- C1 (corrected): what does hold is that every surviving event at offset
`i ≥ 1` is strictly later than the anchor (offset-0) timestamp, since its
offset adds `i * jitter_i ≥ 5` minutes; consecutive surviving events need
not be increasing. -/
theorem survivors_strictly_after_anchor (dt : Date) (bh bm n : Nat)
    (jit ch : Nat → Nat) (msgs : List String) (i : Nat)
    (hj : 5 ≤ jit i) (h0 : 0 < i) (hn : i < n)
    (hsurv : bh + (bm + i * jit i) / 60 ≤ 23) :
    mkEvent dt bh bm jit ch msgs i ∈ sequencerEvents dt bh bm n jit ch msgs ∧
      bh * 60 + bm < timeVal (mkEvent dt bh bm jit ch msgs i) := by
  refine ⟨?_, ?_⟩
  · rw [sequencerEvents, mem_seqFrom]
    exact ⟨i, Nat.zero_le i, by omega, hsurv, rfl⟩
  · have h5 : 5 ≤ i * jit i :=
      le_trans hj (Nat.le_mul_of_pos_left (jit i) h0)
    simp only [timeVal, mkEvent]
    generalize i * jit i = w at h5 ⊢
    omega

/-- C1 witness: with constant jitter 5 from anchor 10:00, offset 1 survives
and is strictly after the anchor. -/
theorem survivors_strictly_after_anchor_witness :
    mkEvent ⟨2023, 1, 1⟩ 10 0 (fun _ => 5) (fun _ => 0) ["m"] 1 ∈
        sequencerEvents ⟨2023, 1, 1⟩ 10 0 3 (fun _ => 5) (fun _ => 0) ["m"] ∧
      10 * 60 + 0 <
        timeVal (mkEvent ⟨2023, 1, 1⟩ 10 0 (fun _ => 5) (fun _ => 0) ["m"] 1) :=
  survivors_strictly_after_anchor ⟨2023, 1, 1⟩ 10 0 3 (fun _ => 5) (fun _ => 0)
    ["m"] 1 (by decide) (by decide) (by decide) (by decide)

/-- C2 counterexample: the code's sequencer differs from the spec's
running-total sequencer on jitter draws 5 (offset 1) and 20 (offset 2): the
code puts offset 2 at minute `2 * 20 = 40`, the running-total model at
`5 + 20 = 25`. -/
theorem running_total_model_ctrex :
    sequencerEvents ⟨2023, 1, 1⟩ 10 0 3 (fun i => if i = 2 then 20 else 5)
        (fun _ => 0) ["m"] ≠
      specSequencerEvents ⟨2023, 1, 1⟩ 10 0 3 (fun i => if i = 2 then 20 else 5)
        (fun _ => 0) ["m"] := by
  decide

/-- C2 (corrected): event 0 is exactly at the anchor, and event `i ≥ 1` adds
`i` times its *own single* jitter draw (the `randint(5, 20)` of iteration
`i`) to the anchor minute — not an accumulated running total — with hour
`anchor_hour + total / 60` and minute `total % 60`. -/
theorem sequencer_per_event_formula (ccfg : RawClusterCfg) (msgs : List String)
    (dr : Draws) (dt : Date)
    (hbm : base_minute dr dt < 60) (hbh : base_hour dr dt ≤ 23)
    (hn : 0 < planClusterCount ccfg (dr.cnt dt)) :
    (clusterForDay ccfg msgs dr dt).head? =
      some ⟨dt, base_hour dr dt, base_minute dr dt,
        msgs.getD (dr.choice dt 0) ""⟩ ∧
    (∀ i, i < planClusterCount ccfg (dr.cnt dt) →
      base_hour dr dt + (base_minute dr dt + i * dr.jit dt i 5 20) / 60 ≤ 23 →
      (⟨dt, base_hour dr dt + (base_minute dr dt + i * dr.jit dt i 5 20) / 60,
          (base_minute dr dt + i * dr.jit dt i 5 20) % 60,
          msgs.getD (dr.choice dt i) ""⟩ : Event) ∈
        clusterForDay ccfg msgs dr dt) := by
  constructor
  · rw [clusterForDay, sequencerEvents]
    rcases hc : planClusterCount ccfg (dr.cnt dt) with _ | m
    · rw [hc] at hn
      exact absurd hn (Nat.lt_irrefl 0)
    · simp only [seqFrom, Nat.zero_mul, Nat.add_zero,
        Nat.div_eq_of_lt hbm, Nat.mod_eq_of_lt hbm]
      rw [if_neg (Nat.not_lt.mpr hbh)]
      simp [mkEvent, Nat.div_eq_of_lt hbm, Nat.mod_eq_of_lt hbm]
  · intro i hi hh
    rw [clusterForDay, sequencerEvents, mem_seqFrom]
    exact ⟨i, Nat.zero_le i, by omega, hh, rfl⟩

/-- C2 witness: with the constant draws (anchor 10:00, count 1), the head
event is exactly the anchor event. -/
theorem sequencer_per_event_formula_witness :
    (clusterForDay ⟨none, none, none⟩ ["m"] constDraws ⟨2023, 2, 1⟩).head? =
      some ⟨⟨2023, 2, 1⟩, base_hour constDraws ⟨2023, 2, 1⟩,
        base_minute constDraws ⟨2023, 2, 1⟩,
        (["m"] : List String).getD (constDraws.choice ⟨2023, 2, 1⟩ 0) ""⟩ :=
  (sequencer_per_event_formula ⟨none, none, none⟩ ["m"] constDraws ⟨2023, 2, 1⟩
    (by decide) (by decide) (by decide)).1

/-- If the loop guard fails at entry (`current <= end` false), the day loop
visits nothing, whatever the fuel. -/
theorem dayLoop_eq_nil (ed cur : Date) (h : dateLE cur ed = false) :
    ∀ fuel, dayLoop ed cur fuel = []
  | 0 => rfl
  | fuel + 1 => by simp [dayLoop, h]

/-- C3 counterexample: for `start_date = 2023-02-05 > end_date = 2023-02-03`
the backfill raises nothing at all — it completes normally, emits the banner,
the loop-start line and the dry-run summary, and schedules zero events.  No
`InvalidRangeError` exists anywhere in the code. -/
theorem inverted_range_completes_ctrex :
    runBackfillDryLines ⟨some 1⟩ ⟨none, none, none⟩ ["m"] constDraws
        ⟨2023, 2, 5⟩ ⟨2023, 2, 3⟩ = [bannerLine, startLine, summaryLine] ∧
    backfillEvents ⟨some 1⟩ ⟨none, none, none⟩ ["m"] constDraws
        ⟨2023, 2, 5⟩ ⟨2023, 2, 3⟩ = [] := by
  decide

/-- C3 (corrected): when `start_date > end_date` the backfill does not fail —
the day loop body never runs, so no day is scheduled, no event and no per-day
output is produced, and in dry-run mode the run completes normally emitting
only the banner, the loop-start line and the summary. -/
theorem inverted_range_empty_schedule (bcfg : RawBackfillCfg)
    (ccfg : RawClusterCfg) (msgs : List String) (dr : Draws) (sd ed : Date)
    (h : dateLE sd ed = false) :
    backfillDates sd ed = [] ∧
    backfillEvents bcfg ccfg msgs dr sd ed = [] ∧
    runBackfillDryLines bcfg ccfg msgs dr sd ed =
      [bannerLine, startLine, summaryLine] := by
  have hd : backfillDates sd ed = [] := dayLoop_eq_nil ed sd h _
  exact ⟨hd, by simp [backfillEvents, hd], by simp [runBackfillDryLines, hd]⟩

/-- C3 witness: the empty-schedule consequence at the concrete inverted
range. -/
theorem inverted_range_empty_schedule_witness :
    backfillEvents ⟨some 1⟩ ⟨none, none, none⟩ ["m"] constDraws ⟨2023, 2, 5⟩
        ⟨2023, 2, 3⟩ = [] :=
  (inverted_range_empty_schedule ⟨some 1⟩ ⟨none, none, none⟩ ["m"] constDraws
    ⟨2023, 2, 5⟩ ⟨2023, 2, 3⟩ (by decide)).2.1

/-- C6 (confirmed): the daily activity gate is active exactly when the
uniform draw is strictly below `commit_frequency_per_day` (default 0.75);
with frequency 0 no day of the range is active and the whole backfill
schedules nothing, with frequency 1 every day of the range is active. -/
theorem daily_activity_gate_props (bcfg : RawBackfillCfg)
    (ccfg : RawClusterCfg) (msgs : List String) (dr : Draws) (sd ed : Date)
    (hact : ∀ dt, 0 ≤ dr.act dt ∧ dr.act dt < 1) :
    (∀ u : ℚ, dayActive bcfg u = true ↔
      u < bcfg.commit_frequency_per_day.getD (3 / 4)) ∧
    (bcfg.commit_frequency_per_day.getD (3 / 4) = 0 →
      (∀ dt ∈ backfillDates sd ed, dayActive bcfg (dr.act dt) = false) ∧
      backfillEvents bcfg ccfg msgs dr sd ed = []) ∧
    (bcfg.commit_frequency_per_day.getD (3 / 4) = 1 →
      ∀ dt ∈ backfillDates sd ed, dayActive bcfg (dr.act dt) = true) := by
  refine ⟨fun u => by simp [dayActive], fun h0 => ⟨?_, ?_⟩, fun h1 dt _ => ?_⟩
  · intro dt _
    simp only [dayActive, h0, decide_eq_false_iff_not, not_lt]
    exact (hact dt).1
  · have hnil : ∀ dt, dayEvents bcfg ccfg msgs dr dt = [] := by
      intro dt
      have hfalse : dayActive bcfg (dr.act dt) = false := by
        simp only [dayActive, h0, decide_eq_false_iff_not, not_lt]
        exact (hact dt).1
      simp [dayEvents, hfalse]
    have hall : ∀ L : List Date, L.flatMap (dayEvents bcfg ccfg msgs dr) = [] := by
      intro L
      induction L with
      | nil => rfl
      | cons d t ih => simp [List.flatMap_cons, hnil, ih]
    exact hall _
  · simp only [dayActive, h1, decide_eq_true_eq]
    exact (hact dt).2

/-- C6 witness: with frequency key set to 0, the concrete one-day backfill
schedules nothing. -/
theorem daily_activity_gate_props_witness :
    backfillEvents ⟨some 0⟩ ⟨none, none, none⟩ ["m"] constDraws ⟨2023, 2, 1⟩
        ⟨2023, 2, 1⟩ = [] :=
  ((daily_activity_gate_props ⟨some 0⟩ ⟨none, none, none⟩ ["m"] constDraws
    ⟨2023, 2, 1⟩ ⟨2023, 2, 1⟩
    (fun _ => ⟨le_refl (0 : ℚ), show (0 : ℚ) < 1 by norm_num⟩)).2.1 rfl).2

/-- C7 (confirmed): the cluster planner returns count 1 when clustering is
disabled; when enabled the count is exactly the `randint` draw requested
from the inclusive range `[min_per_cluster, max_per_cluster]` (defaults 1
and 4), hence lies in it; the anchor hour is the `randint(10, 16)` draw and
the anchor minute the `randint(0, 59)` draw, each inside its inclusive
range.  Uniformity over the requested inclusive range is `randint`'s
contract, given here as the range hypotheses on the draw functions. -/
theorem cluster_planner_contract (ccfg : RawClusterCfg) (dr : Draws) (dt : Date)
    (hcnt : ∀ a b, a ≤ b → a ≤ dr.cnt dt a b ∧ dr.cnt dt a b ≤ b)
    (hh : ∀ a b, a ≤ b → a ≤ dr.anchorH dt a b ∧ dr.anchorH dt a b ≤ b)
    (hm : ∀ a b, a ≤ b → a ≤ dr.anchorM dt a b ∧ dr.anchorM dt a b ≤ b) :
    (ccfg.enabled.getD false = false →
      planClusterCount ccfg (dr.cnt dt) = 1) ∧
    (ccfg.enabled.getD false = true →
      planClusterCount ccfg (dr.cnt dt) =
        dr.cnt dt (ccfg.min_commits_per_cluster.getD 1)
          (ccfg.max_commits_per_cluster.getD 4) ∧
      (ccfg.min_commits_per_cluster.getD 1 ≤
          ccfg.max_commits_per_cluster.getD 4 →
        ccfg.min_commits_per_cluster.getD 1 ≤
            planClusterCount ccfg (dr.cnt dt) ∧
          planClusterCount ccfg (dr.cnt dt) ≤
            ccfg.max_commits_per_cluster.getD 4)) ∧
    (10 ≤ base_hour dr dt ∧ base_hour dr dt ≤ 16) ∧
    base_minute dr dt ≤ 59 := by
  refine ⟨fun hoff => ?_, fun hon => ⟨?_, fun hle => ?_⟩, ?_, ?_⟩
  · simp [planClusterCount, hoff]
  · simp [planClusterCount, hon]
  · simp only [planClusterCount, hon, if_true]
    exact hcnt _ _ hle
  · exact hh 10 16 (by norm_num)
  · exact (hm 0 59 (by norm_num)).2

/-- C7 witness: with clustering enabled and bounds 2/5, the count is the
draw at bounds (2, 5), and the anchor hour lies in `[10, 16]`. -/
theorem cluster_planner_contract_witness :
    planClusterCount ⟨some true, some 2, some 5⟩ (constDraws.cnt ⟨2023, 1, 1⟩) =
        constDraws.cnt ⟨2023, 1, 1⟩ 2 5 ∧
      (10 ≤ base_hour constDraws ⟨2023, 1, 1⟩ ∧
        base_hour constDraws ⟨2023, 1, 1⟩ ≤ 16) :=
  let h := cluster_planner_contract ⟨some true, some 2, some 5⟩ constDraws
    ⟨2023, 1, 1⟩ (fun a _ hab => ⟨Nat.le_refl a, hab⟩)
    (fun a _ hab => ⟨Nat.le_refl a, hab⟩) (fun a _ hab => ⟨Nat.le_refl a, hab⟩)
  ⟨(h.2.1 rfl).1, h.2.2.1⟩

/-- C8 (confirmed): `is_time_to_work` decides in exactly the claimed order —
disabled gate always proceeds; then Saturday/Sunday with the matching
`work_on_*` flag false skips regardless of hour and draw; then an hour
outside the half-open `[start_hour, end_hour)` window skips regardless of
the draw; then a draw below `skip_run_chance` skips; otherwise it
proceeds. -/
theorem working_hours_gate_cases (rc : RawRunCfg) (wd hr : Nat) (u : ℚ)
    (wh : RawWorkingHoursCfg) (hwh : rc.working_hours.getD emptyWH = wh) :
    (wh.enabled.getD false = false → is_time_to_work rc wd hr u = true) ∧
    (wh.enabled.getD false = true →
      ((wd = 5 ∧ wh.work_on_saturday.getD false = false) ∨
          (wd = 6 ∧ wh.work_on_sunday.getD false = false) →
        is_time_to_work rc wd hr u = false) ∧
      (¬((wd = 5 ∧ wh.work_on_saturday.getD false = false) ∨
          (wd = 6 ∧ wh.work_on_sunday.getD false = false)) →
        (hr < wh.start_hour.getD 9 ∨ wh.end_hour.getD 17 ≤ hr) →
        is_time_to_work rc wd hr u = false) ∧
      (¬((wd = 5 ∧ wh.work_on_saturday.getD false = false) ∨
          (wd = 6 ∧ wh.work_on_sunday.getD false = false)) →
        wh.start_hour.getD 9 ≤ hr → hr < wh.end_hour.getD 17 →
        u < rc.skip_run_chance.getD 0 →
        is_time_to_work rc wd hr u = false) ∧
      (¬((wd = 5 ∧ wh.work_on_saturday.getD false = false) ∨
          (wd = 6 ∧ wh.work_on_sunday.getD false = false)) →
        wh.start_hour.getD 9 ≤ hr → hr < wh.end_hour.getD 17 →
        ¬(u < rc.skip_run_chance.getD 0) →
        is_time_to_work rc wd hr u = true)) := by
  have hbof : ¬((wd = 5 ∧ wh.work_on_saturday.getD false = false) ∨
      (wd = 6 ∧ wh.work_on_sunday.getD false = false)) →
      ((wd == 5 && !(wh.work_on_saturday.getD false))
        || (wd == 6 && !(wh.work_on_sunday.getD false))) = false := by
    intro hnw
    cases h5 : (wd == 5) <;> cases h6 : (wd == 6) <;>
      cases hsat : wh.work_on_saturday.getD false <;>
      cases hsun : wh.work_on_sunday.getD false <;> simp_all
  refine ⟨fun hen => ?_, fun hen => ⟨fun hw => ?_, fun hnw hout => ?_,
    fun hnw h1 h2 hu => ?_, fun hnw h1 h2 hu => ?_⟩⟩
  · simp [is_time_to_work, hwh, hen]
  · rcases hw with ⟨rfl, hsat⟩ | ⟨rfl, hsun⟩
    · simp [is_time_to_work, hwh, hen, hsat]
    · simp [is_time_to_work, hwh, hen, hsun]
  · have hwin : ¬(wh.start_hour.getD 9 ≤ hr ∧ hr < wh.end_hour.getD 17) := by
      omega
    simp [is_time_to_work, hwh, hen, hbof hnw, hwin]
  · simp [is_time_to_work, hwh, hen, hbof hnw, h1, h2, hu]
  · simp [is_time_to_work, hwh, hen, hbof hnw, h1, h2, hu]

/-- C8 witness: enabled gate, Monday (weekday 0) at hour 10 inside `[9, 17)`,
draw 1/2 not below chance 0: the gate proceeds. -/
theorem working_hours_gate_cases_witness :
    is_time_to_work
        ⟨some ⟨some true, some false, some false, some 9, some 17⟩, some 0⟩
        0 10 (1 / 2) = true :=
  ((working_hours_gate_cases
      ⟨some ⟨some true, some false, some false, some 9, some 17⟩, some 0⟩
      0 10 (1 / 2) ⟨some true, some false, some false, some 9, some 17⟩
      rfl).2 rfl).2.2.2 (by decide) (by decide) (by decide)
    (show ¬((1 / 2 : ℚ) < 0) by norm_num)

set_option maxRecDepth 8192 in
/-- C9 counterexample: on a concrete one-day dry run the would-create line is
`    [DRY RUN] Would create commit: 'm' at 2023-02-01T10:00:00`; its first 22
characters are not `Would create commit: '`, so that string is not a prefix
of the emitted line (the line carries the `    [DRY RUN] ` lead-in). -/
theorem dry_run_line_prefix_ctrex :
    (runBackfillDryLines ⟨some 1⟩ ⟨none, none, none⟩ ["m"] constDraws
        ⟨2023, 2, 1⟩ ⟨2023, 2, 1⟩)[3]? =
      some ("    [DRY RUN] Would create commit: " ++ apos ++ "m" ++ apos ++
        " at 2023-02-01T10:00:00") ∧
    ((runBackfillDryLines ⟨some 1⟩ ⟨none, none, none⟩ ["m"] constDraws
        ⟨2023, 2, 1⟩ ⟨2023, 2, 1⟩)[3]?).map (fun s => s.take 22) ≠
      some ("Would create commit: " ++ apos) := by
  decide

/-- C9 (corrected): in dry-run mode the loop output holds exactly one
would-create line per surviving event (their count over the whole range
equals the surviving event count); each such line is rendered as
`    [DRY RUN] Would create commit: '` then the message, then `' at `, then
the `YYYY-MM-DDTHH:MM:SS` timestamp (second precision, no timezone suffix);
and the final printed line is the no-history-changed summary. -/
theorem dry_run_output_contract (bcfg : RawBackfillCfg) (ccfg : RawClusterCfg)
    (msgs : List String) (dr : Draws) (sd ed : Date) :
    ((backfillDates sd ed).flatMap
        (fun dt => dayOutLines bcfg ccfg msgs dr dt)).countP
        OutLine.isWouldCreate =
      (backfillEvents bcfg ccfg msgs dr sd ed).length ∧
    (∀ e : Event, renderLine (.wouldCreate e) =
      "    [DRY RUN] Would create commit: " ++ apos ++ e.msg ++ apos ++ " at "
        ++ isoTS e.day e.hour e.minute) ∧
    (∀ (dt : Date) (h m : Nat), isoTS dt h m =
      dateISO dt ++ "T" ++ pad2 h ++ ":" ++ pad2 m ++ ":00") ∧
    (runBackfillDryLines bcfg ccfg msgs dr sd ed).getLast? = some summaryLine := by
  refine ⟨?_, fun e => rfl, fun dt h m => rfl, ?_⟩
  · rw [backfillEvents]
    induction backfillDates sd ed with
    | nil => rfl
    | cons d t ih =>
      rw [List.flatMap_cons, List.flatMap_cons, List.countP_append,
        List.length_append, ih]
      congr 1
      by_cases hA : dayActive bcfg (dr.act d)
      · simp [dayOutLines, dayEvents, hA, OutLine.isWouldCreate, Function.comp]
      · simp [dayOutLines, dayEvents, hA]
  · rw [runBackfillDryLines, List.getLast?_concat]

/-- C10 (confirmed): with every scheduler-relevant key absent the operations
behave exactly as with the built-in defaults written out —
`commit_frequency_per_day` 0.75, clustering `enabled` false with bounds 1
and 4, working-hours `enabled` false with window 9 to 17, and
`skip_run_chance` 0; and with only working-hours `enabled` present (true),
exactly as with the 9/17/0 defaults written out. -/
theorem config_defaults_behavior :
    (∀ (wd hr : Nat) (u : ℚ),
      is_time_to_work ⟨none, none⟩ wd hr u =
        is_time_to_work
          ⟨some ⟨some false, some false, some false, some 9, some 17⟩, some 0⟩
          wd hr u) ∧
    (∀ (wd hr : Nat) (u : ℚ),
      is_time_to_work ⟨some ⟨some true, none, none, none, none⟩, none⟩ wd hr u =
        is_time_to_work
          ⟨some ⟨some true, some false, some false, some 9, some 17⟩, some 0⟩
          wd hr u) ∧
    (∀ (msgs : List String) (dr : Draws) (sd ed : Date),
      backfillEvents ⟨none⟩ ⟨none, none, none⟩ msgs dr sd ed =
        backfillEvents ⟨some (3 / 4)⟩ ⟨some false, some 1, some 4⟩ msgs dr sd ed ∧
      runBackfillDryLines ⟨none⟩ ⟨none, none, none⟩ msgs dr sd ed =
        runBackfillDryLines ⟨some (3 / 4)⟩ ⟨some false, some 1, some 4⟩
          msgs dr sd ed) :=
  ⟨fun _ _ _ => rfl, fun _ _ _ => rfl, fun _ _ _ _ => ⟨rfl, rfl⟩⟩
